import Mathlib

/-!
Shallow embedding of the session-state core of the
Deep_Agent_Financial_Systems_with_LangGraph repository.

The embedded code comes from `src/agent_state.py` (state record, task
backlog, virtual file store, expiring cache, specialist registry,
validation) and `src/sub_agent_delegation.py` (the `task` delegation tool
over the module-level `SUB_AGENTS` registry).

Modelling conventions:
* Python `datetime` instants are modelled as `Nat` values (seconds); every
  operation that calls `datetime.now()` in the source takes the current
  instant as an explicit `now : Nat` argument.  `isoformat()` timestamps
  are kept as the `Nat` instant itself (the rendering is injective and
  order-preserving, so nothing observable is lost);
  `strftime("%H%M%S")` is rendered explicitly by `hhmmss` below because
  task ids embed it.
* Python `dict`s are insertion-ordered association lists; assignment
  `d[k] = v` replaces the binding in place when `k` is present and appends
  otherwise (`dictSet`), `d.get(k)` is `dictGet`, `del d[k]` is `dictDel`,
  and `d.update(p)` is `pyDictUpdate`.
* Free-form `Any` payloads (message objects, metadata values, cached data)
  are modelled by the semi-structured value type `PyVal`.
-/

inductive PyVal where
  | str (s : String)
  | int (n : Int)
  | boolean (b : Bool)
  | pynone
  | listv (xs : List PyVal)
  | dictv (entries : List (String × PyVal))

/-- Python `d.get(k)` on an insertion-ordered dict. -/
def dictGet {α : Type} (d : List (String × α)) (k : String) : Option α :=
  (d.find? (fun p => p.1 == k)).map Prod.snd

/-- Python `d[k] = v`: replace in place when the key is present, append otherwise. -/
def dictSet {α : Type} (d : List (String × α)) (k : String) (v : α) :
    List (String × α) :=
  if d.any (fun p => p.1 == k) then
    d.map (fun p => if p.1 == k then (k, v) else p)
  else d ++ [(k, v)]

/-- Python `del d[k]`. -/
def dictDel {α : Type} (d : List (String × α)) (k : String) : List (String × α) :=
  d.filter (fun p => !(p.1 == k))

/-- Python `d.update(patch)`: shallow merge, the patch wins on key collision. -/
def pyDictUpdate (d patch : List (String × PyVal)) : List (String × PyVal) :=
  patch.foldl (fun acc kv => dictSet acc kv.1 kv.2) d

inductive TodoStatus where
  | pending | in_progress | completed | cancelled
deriving DecidableEq

inductive TodoPriority where
  | low | medium | high | urgent
deriving DecidableEq

inductive FileType where
  | file | directory
deriving DecidableEq

inductive SubAgentStatus where
  | idle | working | completed | error
deriving DecidableEq

inductive AgentStatus where
  | initializing | planning | executing | delegating | summarizing | completed | error
deriving DecidableEq

/-- `TodoItem` TypedDict of `agent_state.py`. -/
structure TodoItem where
  id : String
  task : String
  status : TodoStatus
  created_at : Nat
  updated_at : Nat
  priority : TodoPriority
  assigned_agent : Option String
  dependencies : List String
  metadata : List (String × PyVal)

/-- `FileSystemItem` TypedDict of `agent_state.py`. -/
structure FileSystemItem where
  name : String
  content : String
  type : FileType
  created_at : Nat
  updated_at : Nat
  size : Nat
  metadata : List (String × PyVal)

/-- One record of `state["file_operations_log"]`; read records have no
`size` key, modelled by `Option.none`. -/
structure FileOpRecord where
  op : String
  filename : String
  timestamp : Nat
  size : Option Nat
deriving DecidableEq

/-- `FinancialDataCache` TypedDict of `agent_state.py`. -/
structure FinancialDataCache where
  symbol : String
  data_type : String
  data : List (String × PyVal)
  timestamp : Nat
  expiry : Nat

/-- `SubAgentInfo` TypedDict of `agent_state.py`. -/
structure SubAgentInfo where
  name : String
  description : String
  tools : List String
  status : SubAgentStatus
  created_at : Nat
  last_active : Nat
  results : Option (List (String × PyVal))

/-- `DeepAgentState` TypedDict of `agent_state.py`. -/
structure DeepAgentState where
  messages : List PyVal
  todos : List TodoItem
  current_task : Option String
  planning_context : List (String × PyVal)
  files : List (String × FileSystemItem)
  current_directory : String
  file_operations_log : List FileOpRecord
  sub_agents : List (String × SubAgentInfo)
  active_sub_agents : List String
  delegation_history : List PyVal
  financial_cache : List (String × FinancialDataCache)
  watchlist : List String
  portfolio : List (String × PyVal)
  market_data : List (String × PyVal)
  research_context : List (String × PyVal)
  analysis_results : List PyVal
  web_search_results : List PyVal
  iteration_count : Nat
  max_iterations : Nat
  start_time : Nat
  last_activity : Nat
  agent_status : AgentStatus
  session_id : String
  user_preferences : List (String × PyVal)
  conversation_context : List (String × PyVal)

/-- `create_initial_state` of `agent_state.py` (the `session_id` default
generation from the wall clock is passed in by the caller). -/
def create_initial_state (user_message : String) (session_id : String)
    (max_iterations : Nat) (now : Nat) : DeepAgentState where
  messages := [PyVal.str user_message]
  todos := []
  current_task := Option.none
  planning_context := []
  files := []
  current_directory := "/"
  file_operations_log := []
  sub_agents := []
  active_sub_agents := []
  delegation_history := []
  financial_cache := []
  watchlist := []
  portfolio := []
  market_data := []
  research_context := []
  analysis_results := []
  web_search_results := []
  iteration_count := 0
  max_iterations := max_iterations
  start_time := now
  last_activity := now
  agent_status := AgentStatus.initializing
  session_id := session_id
  user_preferences := []
  conversation_context := []

/-- Rendering of `datetime.now().strftime("%H%M%S")` for an instant
measured in seconds: three two-digit zero-padded fields. -/
def pad2 (n : Nat) : String :=
  if n < 10 then "0" ++ Nat.repr n else Nat.repr n

def hhmmss (t : Nat) : String :=
  pad2 (t / 3600 % 24) ++ pad2 (t % 3600 / 60) ++ pad2 (t % 60)

/-- The id built by `add_todo_item`:
`f"todo_{len(state['todos']) + 1}_{datetime.now().strftime('%H%M%S')}"`. -/
def newTodoId (state : DeepAgentState) (now : Nat) : String :=
  "todo_" ++ Nat.repr (state.todos.length + 1) ++ "_" ++ hhmmss now

/-- `add_todo_item` of `agent_state.py`. -/
def add_todo_item (state : DeepAgentState) (task : String)
    (priority : TodoPriority) (assigned_agent : Option String)
    (dependencies : List String) (now : Nat) : DeepAgentState :=
  let new_todo : TodoItem :=
    { id := newTodoId state now
      task := task
      status := TodoStatus.pending
      created_at := now
      updated_at := now
      priority := priority
      assigned_agent := assigned_agent
      dependencies := dependencies
      metadata := [] }
  { state with
      todos := state.todos ++ [new_todo]
      last_activity := now }

/-- The in-place mutation `update_todo_status` performs on the matched
todo: set status, set `updated_at`, and (only when the `metadata` argument
is truthy, i.e. a non-empty dict) `todo["metadata"].update(metadata)`. -/
def applyTodoUpdate (status : TodoStatus) (metadata : List (String × PyVal))
    (now : Nat) (todo : TodoItem) : TodoItem :=
  { todo with
      status := status
      updated_at := now
      metadata :=
        if metadata.isEmpty then todo.metadata
        else pyDictUpdate todo.metadata metadata }

/-- The `for ... if todo["id"] == todo_id: ...; break` loop of
`update_todo_status`: only the first matching todo is rewritten. -/
def updateFirstTodo (todos : List TodoItem) (todo_id : String)
    (f : TodoItem → TodoItem) : List TodoItem :=
  match todos with
  | [] => []
  | t :: rest =>
      if t.id == todo_id then f t :: rest
      else t :: updateFirstTodo rest todo_id f

/-- `update_todo_status` of `agent_state.py` (the Python default
`metadata=None` and an empty dict are both falsy; both are the `[]`
argument here). -/
def update_todo_status (state : DeepAgentState) (todo_id : String)
    (status : TodoStatus) (metadata : List (String × PyVal)) (now : Nat) :
    DeepAgentState :=
  { state with
      todos := updateFirstTodo state.todos todo_id (applyTodoUpdate status metadata now)
      last_activity := now }

/-- `write_file` of `agent_state.py`. -/
def write_file (state : DeepAgentState) (filename content : String)
    (file_type : FileType) (now : Nat) : DeepAgentState :=
  let file_item : FileSystemItem :=
    { name := filename
      content := content
      type := file_type
      created_at := now
      updated_at := now
      size := content.length
      metadata := [] }
  { state with
      files := dictSet state.files filename file_item
      file_operations_log := state.file_operations_log ++
        [{ op := "write", filename := filename, timestamp := now, size := some content.length }]
      last_activity := now }

/-- `read_file` of `agent_state.py`: returns the (possibly mutated) state
together with the Python return value (`content` or `None`). -/
def read_file (state : DeepAgentState) (filename : String) (now : Nat) :
    DeepAgentState × Option String :=
  match dictGet state.files filename with
  | some file_item =>
      ({ state with
          file_operations_log := state.file_operations_log ++
            [{ op := "read", filename := filename, timestamp := now, size := Option.none }] },
       some file_item.content)
  | Option.none => (state, Option.none)

/-- `list_files` of `agent_state.py`: returns all keys regardless of the
directory argument. -/
def list_files (state : DeepAgentState) : List String :=
  state.files.map Prod.fst

/-- `cache_financial_data` of `agent_state.py`
(`expiry = now + timedelta(minutes=expiry_minutes)`). -/
def cache_financial_data (state : DeepAgentState) (symbol data_type : String)
    (data : List (String × PyVal)) (expiry_minutes : Nat) (now : Nat) :
    DeepAgentState :=
  let expiry := now + expiry_minutes * 60
  let cache_key := symbol ++ "_" ++ data_type
  let cache_item : FinancialDataCache :=
    { symbol := symbol
      data_type := data_type
      data := data
      timestamp := now
      expiry := expiry }
  { state with
      financial_cache := dictSet state.financial_cache cache_key cache_item
      last_activity := now }

/-- `get_cached_financial_data` of `agent_state.py`: returns the (possibly
mutated) state together with the Python return value. -/
def get_cached_financial_data (state : DeepAgentState)
    (symbol data_type : String) (now : Nat) :
    DeepAgentState × Option (List (String × PyVal)) :=
  let cache_key := symbol ++ "_" ++ data_type
  match dictGet state.financial_cache cache_key with
  | some cache_item =>
      if now < cache_item.expiry then (state, some cache_item.data)
      else
        ({ state with financial_cache := dictDel state.financial_cache cache_key },
         Option.none)
  | Option.none => (state, Option.none)

/-- `register_sub_agent` of `agent_state.py`. -/
def register_sub_agent (state : DeepAgentState) (name description : String)
    (tools : List String) (now : Nat) : DeepAgentState :=
  let sub_agent : SubAgentInfo :=
    { name := name
      description := description
      tools := tools
      status := SubAgentStatus.idle
      created_at := now
      last_active := now
      results := Option.none }
  { state with
      sub_agents := dictSet state.sub_agents name sub_agent
      last_activity := now }

/-- `update_sub_agent_status` of `agent_state.py` (`if results:` is true
only for a non-None, non-empty dict). -/
def update_sub_agent_status (state : DeepAgentState) (agent_name : String)
    (status : SubAgentStatus) (results : Option (List (String × PyVal)))
    (now : Nat) : DeepAgentState :=
  let sub_agents :=
    match dictGet state.sub_agents agent_name with
    | some info =>
        dictSet state.sub_agents agent_name
          { info with
              status := status
              last_active := now
              results :=
                match results with
                | some r => if r.isEmpty then info.results else some r
                | Option.none => info.results }
    | Option.none => state.sub_agents
  { state with
      sub_agents := sub_agents
      last_activity := now }

/-- The orphaned-dependency issues `validate_state` emits for one todo. -/
def orphanIssues (todo_ids : List String) (todo : TodoItem) : List String :=
  (todo.dependencies.filter (fun d => !(todo_ids.contains d))).map
    (fun d => "TODO " ++ todo.id ++ " has orphaned dependency: " ++ d)

/-- `validate_state` of `agent_state.py`: a read-only diagnostic pass
producing the three kinds of issue strings in source order. -/
def validate_state (state : DeepAgentState) : List String :=
  let limit_issues : List String :=
    if state.max_iterations ≤ state.iteration_count then
      ["Iteration limit reached: " ++ Nat.repr state.iteration_count ++ "/" ++
        Nat.repr state.max_iterations]
    else []
  let todo_ids := state.todos.map TodoItem.id
  let orphan_issues := (state.todos.map (orphanIssues todo_ids)).flatten
  let agent_issues :=
    (state.active_sub_agents.filter (fun n => (dictGet state.sub_agents n).isNone)).map
      (fun n => "Active sub-agent " ++ n ++ " not found in sub_agents registry")
  limit_issues ++ orphan_issues ++ agent_issues

/-- A message returned by a sub-agent invocation; `content` is `none` when
the object has no `content` attribute. -/
structure MessageLike where
  content : Option String

/-- The result of `sub_agent.invoke(...)` as `task` inspects it: `none`
models a falsy result or one without a `"messages"` key. -/
abbrev InvokeResult := Option (List MessageLike)

/-- A specialist capability: accepts a task description and returns a
structured result, or fails with an exception message. -/
abbrev Capability := String → Except String InvokeResult

/-- Python `str` of a list of strings, as interpolated into the
not-found message of `task`. -/
def pyStrListRepr (keys : List String) : String :=
  "[" ++ String.intercalate ", " (keys.map (fun k => "'" ++ k ++ "'")) ++ "]"

/-- The `task` delegation tool of `sub_agent_delegation.py`, over the
module-level `SUB_AGENTS` registry.  An empty `messages` list makes
`result["messages"][-1]` raise `IndexError`, caught by the handler. -/
def task (sub_agents : List (String × Capability))
    (agent_name task_description : String) : String :=
  match dictGet sub_agents agent_name with
  | Option.none =>
      "❌ Sub-agent '" ++ agent_name ++ "' not found. Available agents: " ++
        pyStrListRepr (sub_agents.map Prod.fst)
  | some sub_agent =>
      match sub_agent task_description with
      | Except.error e => "❌ Error in sub-agent " ++ agent_name ++ ": " ++ e
      | Except.ok Option.none =>
          "✅ Task delegated to " ++ agent_name ++ " - check detailed output above"
      | Except.ok (some msgs) =>
          match msgs.getLast? with
          | Option.none =>
              "❌ Error in sub-agent " ++ agent_name ++ ": list index out of range"
          | some last_message =>
              match last_message.content with
              | some c => "Sub-agent '" ++ agent_name ++ "' results:\n" ++ c
              | Option.none =>
                  "✅ Task delegated to " ++ agent_name ++ " - check detailed output above"

/-- Delegation as it affects the session: in the source the `task` tool
receives only the two strings, consults the module-level `SUB_AGENTS`
registry, and returns a string; no code path of the repository updates the
`DeepAgentState` specialist records on delegation (`update_sub_agent_status`
has no caller), so the session state is returned unchanged next to the
tool's string result. -/
def delegate (state : DeepAgentState)
    (sub_agents : List (String × Capability))
    (agent_name task_description : String) : DeepAgentState × String :=
  (state, task sub_agents agent_name task_description)

/-! Small facts about the Python-dict model, shared by several claims. -/

theorem find_map_set_of_any {α : Type} (k : String) (v : α) :
    ∀ d : List (String × α), d.any (fun p => p.1 == k) = true →
      (d.map (fun p => if p.1 == k then (k, v) else p)).find? (fun p => p.1 == k) =
        some (k, v) := by
  intro d
  induction d with
  | nil => intro h; simp at h
  | cons p rest ih =>
    intro h
    cases hp : (p.1 == k) with
    | true =>
      rw [List.map_cons, if_pos hp]
      exact List.find?_cons_of_pos _ (by simp)
    | false =>
      rw [List.map_cons, if_neg (by simp [hp])]
      rw [List.find?_cons_of_neg _ (by simp [hp])]
      have hr : rest.any (fun p => p.1 == k) = true := by
        rcases List.any_eq_true.mp h with ⟨x, hx, hpx⟩
        rcases List.mem_cons.mp hx with rfl | hx'
        · exact absurd hpx (by simp [hp])
        · exact List.any_eq_true.mpr ⟨x, hx', hpx⟩
      exact ih hr

theorem find_dictSet_self {α : Type} (d : List (String × α)) (k : String) (v : α) :
    (dictSet d k v).find? (fun p => p.1 == k) = some (k, v) := by
  by_cases h : d.any (fun p => p.1 == k)
  · rw [dictSet, if_pos h]; exact find_map_set_of_any k v d h
  · rw [dictSet, if_neg h, List.find?_append]
    have hnone : d.find? (fun p => p.1 == k) = Option.none :=
      List.find?_eq_none.mpr (fun x hx => by
        have := List.any_eq_false.mp (Bool.eq_false_iff.mpr h) x hx
        simpa using this)
    rw [hnone]
    simp [List.find?_cons_of_pos]

theorem dictGet_dictSet_self {α : Type} (d : List (String × α)) (k : String) (v : α) :
    dictGet (dictSet d k v) k = some v := by
  rw [dictGet, find_dictSet_self]; rfl

theorem dictGet_dictSet_ne {α : Type} (d : List (String × α)) (k k' : String) (v : α)
    (h : k' ≠ k) : dictGet (dictSet d k v) k' = dictGet d k' := by
  have hkk : (k == k') = false := by simpa using (Ne.symm h)
  rw [dictGet, dictGet]
  by_cases hany : d.any (fun p => p.1 == k)
  · rw [dictSet, if_pos hany]
    clear hany
    induction d with
    | nil => rfl
    | cons p rest ih =>
      cases hp : (p.1 == k) with
      | true =>
        have hp1 : p.1 = k := by simpa using hp
        have hfp : (p.1 == k') = false := by rw [hp1]; exact hkk
        rw [List.map_cons, if_pos hp]
        rw [List.find?_cons_of_neg _ (by simp [hkk]),
            List.find?_cons_of_neg _ (by simp [hfp])]
        exact ih
      | false =>
        rw [List.map_cons, if_neg (by simp [hp])]
        cases hp' : (p.1 == k') with
        | true =>
          rw [List.find?_cons_of_pos _ (by simp [hp']),
              List.find?_cons_of_pos _ (by simp [hp'])]
        | false =>
          rw [List.find?_cons_of_neg _ (by simp [hp']),
              List.find?_cons_of_neg _ (by simp [hp'])]
          exact ih
  · rw [dictSet, if_neg hany, List.find?_append]
    have hone : ([(k, v)].find? (fun p => p.1 == k')) = Option.none :=
      List.find?_eq_none.mpr (fun x hx => by
        rcases List.mem_singleton.mp hx with rfl
        simpa using h.symm)
    rw [hone]
    cases d.find? (fun p => p.1 == k') <;> rfl

theorem dictGet_dictDel_self {α : Type} (d : List (String × α)) (k : String) :
    dictGet (dictDel d k) k = Option.none := by
  rw [dictGet, dictDel]
  have : (d.filter (fun p => !(p.1 == k))).find? (fun p => p.1 == k) = Option.none :=
    List.find?_eq_none.mpr (fun x hx => by
      have := (List.mem_filter.mp hx).2
      simpa using this)
  rw [this]; rfl

theorem updateFirstTodo_of_not_mem (todos : List TodoItem) (todo_id : String)
    (f : TodoItem → TodoItem) (h : todo_id ∉ todos.map TodoItem.id) :
    updateFirstTodo todos todo_id f = todos := by
  induction todos with
  | nil => rfl
  | cons t rest ih =>
    rw [List.map_cons, List.mem_cons, not_or] at h
    rw [updateFirstTodo, if_neg (by simpa using Ne.symm h.1), ih h.2]

/-- C4: for every state, name and content, `write(name, content)` followed
immediately by `read(name)` returns exactly `content`; the stored entry's
`size` and the appended write-log record's `size` both equal the content's
length. -/
theorem c4_write_read_roundtrip (s : DeepAgentState) (filename content : String)
    (file_type : FileType) (t1 t2 : Nat) :
    (read_file (write_file s filename content file_type t1) filename t2).2 =
        some content ∧
    (dictGet (write_file s filename content file_type t1).files filename).map
        FileSystemItem.size = some content.length ∧
    (write_file s filename content file_type t1).file_operations_log =
      s.file_operations_log ++
        [{ op := "write", filename := filename, timestamp := t1,
           size := some content.length }] := by
  refine ⟨?_, ?_, rfl⟩
  · have hf : dictGet (write_file s filename content file_type t1).files filename =
        some { name := filename, content := content, type := file_type,
               created_at := t1, updated_at := t1, size := content.length,
               metadata := [] } := dictGet_dictSet_self _ _ _
    simp [read_file, hf]
  · simp [write_file, dictGet_dictSet_self]

/-- C10: writing to an already-existing name replaces the whole stored
entry: the new entry's `created_at` is the time of this write, its
metadata map is reset to empty, and content, size and `updated_at` reflect
the new write. -/
theorem c10_write_replaces_entry (s : DeepAgentState) (filename content : String)
    (file_type : FileType) (now : Nat)
    (hexists : (dictGet s.files filename).isSome = true) :
    dictGet (write_file s filename content file_type now).files filename =
      some { name := filename, content := content, type := file_type,
             created_at := now, updated_at := now, size := content.length,
             metadata := [] } :=
  dictGet_dictSet_self _ _ _

/-- Witness for C10 at a concrete state whose stored entry has an older
creation timestamp and non-empty metadata, both discarded by the write. -/
theorem c10_write_replaces_entry_witness :
    dictGet (write_file
        { create_initial_state "q" "sid" 50 0 with
            files := [("report.md",
              { name := "report.md", content := "old", type := FileType.file,
                created_at := 17, updated_at := 23, size := 3,
                metadata := [("author", PyVal.str "a")] })] }
        "report.md" "new!" FileType.file 99).files "report.md" =
      some { name := "report.md", content := "new!", type := FileType.file,
             created_at := 99, updated_at := 99, size := 4, metadata := [] } :=
  c10_write_replaces_entry _ _ _ _ _ rfl

/-- C2 amended: every dedicated mutator (`add_todo_item`,
`update_todo_status`, `write_file`, `cache_financial_data`,
`register_sub_agent`, `update_sub_agent_status`) refreshes
`last_activity`, but the log append performed by a successful `read_file`
and the lazy eviction performed by `get_cached_financial_data` leave
`last_activity` untouched. -/
theorem c2_amended_activity_refresh :
    (∀ (s : DeepAgentState) (t : String) (pr : TodoPriority) (ag : Option String)
        (deps : List String) (now : Nat),
        (add_todo_item s t pr ag deps now).last_activity = now) ∧
    (∀ (s : DeepAgentState) (todo_id : String) (st : TodoStatus)
        (md : List (String × PyVal)) (now : Nat),
        (update_todo_status s todo_id st md now).last_activity = now) ∧
    (∀ (s : DeepAgentState) (filename content : String) (ty : FileType) (now : Nat),
        (write_file s filename content ty now).last_activity = now) ∧
    (∀ (s : DeepAgentState) (sym dt : String) (data : List (String × PyVal))
        (em now : Nat),
        (cache_financial_data s sym dt data em now).last_activity = now) ∧
    (∀ (s : DeepAgentState) (n d : String) (tools : List String) (now : Nat),
        (register_sub_agent s n d tools now).last_activity = now) ∧
    (∀ (s : DeepAgentState) (n : String) (st : SubAgentStatus)
        (r : Option (List (String × PyVal))) (now : Nat),
        (update_sub_agent_status s n st r now).last_activity = now) ∧
    (∀ (s : DeepAgentState) (filename : String) (now : Nat),
        ((read_file s filename now).1).last_activity = s.last_activity) ∧
    (∀ (s : DeepAgentState) (sym dt : String) (now : Nat),
        ((get_cached_financial_data s sym dt now).1).last_activity = s.last_activity) := by
  refine ⟨fun _ _ _ _ _ _ => rfl, fun _ _ _ _ _ => rfl, fun _ _ _ _ _ => rfl,
    fun _ _ _ _ _ _ => rfl, fun _ _ _ _ _ => rfl, fun _ _ _ _ _ => rfl, ?_, ?_⟩
  · intro s filename now
    simp only [read_file]
    cases dictGet s.files filename <;> rfl
  · intro s sym dt now
    simp only [get_cached_financial_data]
    cases dictGet s.financial_cache (sym ++ "_" ++ dt) with
    | none => rfl
    | some ci => by_cases hlt : now < ci.expiry <;> simp [hlt]

/-- C2 counterexample: a successful `read_file` appends a log record (a
state mutation) yet leaves `last_activity` at its old value `0` instead of
refreshing it to the call's time `5`, so not every mutating operation
refreshes the last-activity timestamp. -/
theorem c2_read_mutates_without_activity_refresh :
    (((read_file (write_file (create_initial_state "q" "sid" 50 0) "notes.txt" "abc"
        FileType.file 0) "notes.txt" 5).1).file_operations_log).length =
      ((write_file (create_initial_state "q" "sid" 50 0) "notes.txt" "abc"
        FileType.file 0).file_operations_log).length + 1 ∧
    (((read_file (write_file (create_initial_state "q" "sid" 50 0) "notes.txt" "abc"
        FileType.file 0) "notes.txt" 5).1).last_activity = 0 ∧ (0 : Nat) ≠ 5) :=
  ⟨rfl, rfl, by decide⟩

/-- C5: delegating to a name missing from the `SUB_AGENTS` registry
returns the not-found outcome carrying the rendered list of known
specialist names; no capability is invoked and the session state (hence
every registry record) is exactly as before, with no entry created for
the unknown name. -/
theorem c5_delegate_unknown_specialist (state : DeepAgentState)
    (sub_agents : List (String × Capability)) (agent_name task_description : String)
    (h : dictGet sub_agents agent_name = Option.none) :
    delegate state sub_agents agent_name task_description =
      (state,
        "❌ Sub-agent '" ++ agent_name ++ "' not found. Available agents: " ++
          pyStrListRepr (sub_agents.map Prod.fst)) := by
  simp [delegate, task, h]

/-- Witness for C5: the spec's own scenario `delegate("unknown_agent", "x")`
against a registry that only knows `stock_analyst`. -/
theorem c5_delegate_unknown_specialist_witness :
    delegate (create_initial_state "q" "sid" 50 0)
        [("stock_analyst", fun _ => Except.ok Option.none)] "unknown_agent" "x" =
      (create_initial_state "q" "sid" 50 0,
        "❌ Sub-agent 'unknown_agent' not found. Available agents: " ++
          pyStrListRepr ["stock_analyst"]) :=
  c5_delegate_unknown_specialist _ _ _ _ rfl

/-- C7: a status update addressed to an unknown task id leaves the task
collection exactly as before, and a mark addressed to an unknown
specialist name leaves the specialist registry exactly as before; both
operations are total, so no error is raised. -/
theorem c7_missing_id_noop :
    (∀ (s : DeepAgentState) (todo_id : String) (st : TodoStatus)
        (md : List (String × PyVal)) (now : Nat),
        todo_id ∉ s.todos.map TodoItem.id →
        (update_todo_status s todo_id st md now).todos = s.todos) ∧
    (∀ (s : DeepAgentState) (agent_name : String) (st : SubAgentStatus)
        (r : Option (List (String × PyVal))) (now : Nat),
        dictGet s.sub_agents agent_name = Option.none →
        (update_sub_agent_status s agent_name st r now).sub_agents = s.sub_agents) := by
  constructor
  · intro s todo_id st md now h
    exact updateFirstTodo_of_not_mem _ _ _ h
  · intro s agent_name st r now h
    simp [update_sub_agent_status, h]

/-- Witness for C7 on the empty initial collections. -/
theorem c7_missing_id_noop_witness :
    (update_todo_status (create_initial_state "q" "sid" 50 0) "todo_99_000000"
        TodoStatus.completed [] 7).todos = (create_initial_state "q" "sid" 50 0).todos ∧
    (update_sub_agent_status (create_initial_state "q" "sid" 50 0) "ghost"
        SubAgentStatus.completed Option.none 7).sub_agents =
      (create_initial_state "q" "sid" 50 0).sub_agents :=
  ⟨c7_missing_id_noop.1 _ _ _ _ _ (by decide),
   c7_missing_id_noop.2 _ _ _ _ _ rfl⟩

/-- C3: cache semantics of `cache_financial_data` / `get_cached_financial_data`:
a get strictly before the stored expiry returns the payload unchanged; a get
at or after the expiry returns absent and deletes the entry, so a second get
also returns absent; a get of a key never put returns absent. -/
theorem c3_cache_ttl_semantics :
    (∀ (s : DeepAgentState) (sym dt : String) (data : List (String × PyVal))
        (em now0 now1 : Nat), 0 < em → now1 < now0 + em * 60 →
        get_cached_financial_data (cache_financial_data s sym dt data em now0)
            sym dt now1 =
          (cache_financial_data s sym dt data em now0, some data)) ∧
    (∀ (s : DeepAgentState) (sym dt : String) (data : List (String × PyVal))
        (em now0 now1 now2 : Nat), 0 < em → now0 + em * 60 ≤ now1 →
        (get_cached_financial_data (cache_financial_data s sym dt data em now0)
            sym dt now1).2 = Option.none ∧
        dictGet ((get_cached_financial_data (cache_financial_data s sym dt data em now0)
            sym dt now1).1).financial_cache (sym ++ "_" ++ dt) = Option.none ∧
        get_cached_financial_data
            ((get_cached_financial_data (cache_financial_data s sym dt data em now0)
              sym dt now1).1) sym dt now2 =
          (((get_cached_financial_data (cache_financial_data s sym dt data em now0)
              sym dt now1).1), Option.none)) ∧
    (∀ (s : DeepAgentState) (sym dt : String) (now : Nat),
        dictGet s.financial_cache (sym ++ "_" ++ dt) = Option.none →
        get_cached_financial_data s sym dt now = (s, Option.none)) := by
  have hput : ∀ (s : DeepAgentState) (sym dt : String) (data : List (String × PyVal))
      (em now0 : Nat),
      dictGet (cache_financial_data s sym dt data em now0).financial_cache
          (sym ++ "_" ++ dt) =
        some { symbol := sym, data_type := dt, data := data, timestamp := now0,
               expiry := now0 + em * 60 } :=
    fun s sym dt data em now0 => dictGet_dictSet_self _ _ _
  refine ⟨?_, ?_, ?_⟩
  · intro s sym dt data em now0 now1 _ hlt
    simp [get_cached_financial_data, hput, hlt]
  · intro s sym dt data em now0 now1 now2 _ hge
    have hnl : ¬ (now1 < now0 + em * 60) := Nat.not_lt.mpr hge
    have h1 : get_cached_financial_data (cache_financial_data s sym dt data em now0)
        sym dt now1 =
        ({ cache_financial_data s sym dt data em now0 with
            financial_cache :=
              dictDel (cache_financial_data s sym dt data em now0).financial_cache
                (sym ++ "_" ++ dt) }, Option.none) := by
      simp [get_cached_financial_data, hput, hnl]
    refine ⟨by rw [h1], ?_, ?_⟩
    · rw [h1]; exact dictGet_dictDel_self _ _
    · rw [h1]; simp [get_cached_financial_data, dictGet_dictDel_self]
  · intro s sym dt now h
    simp [get_cached_financial_data, h]

/-- Witness for C3: the spec's scenario shape
`put("AAPL","price",...,ttl = 1 minute)` with a fresh get at 30s, a stale
get at 60s, a second get at 61s, and a get of a never-put key. -/
theorem c3_cache_ttl_semantics_witness :
    (let s1 := cache_financial_data (create_initial_state "q" "sid" 50 0) "AAPL"
        "price" [("p", PyVal.int 100)] 1 0
     get_cached_financial_data s1 "AAPL" "price" 30 =
        (s1, some [("p", PyVal.int 100)]) ∧
     ((get_cached_financial_data s1 "AAPL" "price" 60).2 = Option.none ∧
      dictGet ((get_cached_financial_data s1 "AAPL" "price" 60).1).financial_cache
          ("AAPL" ++ "_" ++ "price") = Option.none ∧
      get_cached_financial_data ((get_cached_financial_data s1 "AAPL" "price" 60).1)
          "AAPL" "price" 61 =
        ((get_cached_financial_data s1 "AAPL" "price" 60).1, Option.none))) ∧
    get_cached_financial_data (create_initial_state "q" "sid" 50 0) "MSFT" "price" 5 =
      (create_initial_state "q" "sid" 50 0, Option.none) :=
  ⟨⟨c3_cache_ttl_semantics.1 _ _ _ _ _ _ _ (by decide) (by decide),
    c3_cache_ttl_semantics.2.1 _ _ _ _ _ _ _ _ (by decide) (by decide)⟩,
   c3_cache_ttl_semantics.2.2 _ _ _ _ rfl⟩

/-- C6: whenever the backlog holds a task with a dependency id matching no
task in the backlog, `validate_state` returns the issue string naming that
task and the dangling id.  The embedded `validate_state` is a pure function
`DeepAgentState → List String`, mirroring that the source only reads the
state and appends to a local `issues` list. -/
theorem c6_validate_reports_orphaned_dependency (s : DeepAgentState)
    (todo : TodoItem) (dep : String) (hmem : todo ∈ s.todos)
    (hdep : dep ∈ todo.dependencies) (horph : dep ∉ s.todos.map TodoItem.id) :
    ("TODO " ++ todo.id ++ " has orphaned dependency: " ++ dep) ∈
      validate_state s := by
  simp only [validate_state]
  refine List.mem_append.mpr (Or.inl (List.mem_append.mpr (Or.inr ?_)))
  refine List.mem_flatten.mpr
    ⟨orphanIssues (s.todos.map TodoItem.id) todo, List.mem_map_of_mem _ hmem, ?_⟩
  simp only [orphanIssues]
  refine List.mem_map.mpr ⟨dep, List.mem_filter.mpr ⟨hdep, ?_⟩, rfl⟩
  simpa using horph

/-- Witness for C6: a backlog holding one task `T2` that depends on the
never-added id `T99`. -/
theorem c6_validate_reports_orphaned_dependency_witness :
    (let todoW : TodoItem :=
      { id := "T2", task := "x", status := TodoStatus.pending, created_at := 0,
        updated_at := 0, priority := TodoPriority.medium,
        assigned_agent := Option.none, dependencies := ["T99"], metadata := [] }
     ("TODO " ++ "T2" ++ " has orphaned dependency: " ++ "T99") ∈
       validate_state { create_initial_state "q" "sid" 50 0 with todos := [todoW] }) :=
  c6_validate_reports_orphaned_dependency _ _ _ (List.mem_singleton.mpr rfl)
    (by decide) (by decide)

theorem updateFirstTodo_append (tk : TodoItem) (post : List TodoItem) (X : String)
    (f : TodoItem → TodoItem) (hid : tk.id = X) :
    ∀ pre : List TodoItem, X ∉ pre.map TodoItem.id →
      updateFirstTodo (pre ++ tk :: post) X f = pre ++ f tk :: post := by
  intro pre
  induction pre with
  | nil =>
    intro _
    rw [List.nil_append, List.nil_append, updateFirstTodo, if_pos (by simp [hid])]
  | cons p rest ih =>
    intro h
    rw [List.map_cons, List.mem_cons, not_or] at h
    rw [List.cons_append, updateFirstTodo, if_neg (by simpa using Ne.symm h.1),
      ih h.2, List.cons_append]

theorem dictGet_pyDictUpdate_not_mem (patch : List (String × PyVal)) :
    ∀ (d : List (String × PyVal)) (k : String), k ∉ patch.map Prod.fst →
      dictGet (pyDictUpdate d patch) k = dictGet d k := by
  induction patch with
  | nil => intro d k _; rfl
  | cons kv rest ih =>
    intro d k h
    rw [List.map_cons, List.mem_cons, not_or] at h
    calc dictGet (pyDictUpdate (dictSet d kv.1 kv.2) rest) k
        = dictGet (dictSet d kv.1 kv.2) k := ih _ _ h.2
      _ = dictGet d k := dictGet_dictSet_ne _ _ _ _ h.1

theorem dictGet_pyDictUpdate_of_mem (patch : List (String × PyVal)) :
    ∀ (d : List (String × PyVal)) (k : String) (v : PyVal),
      (patch.map Prod.fst).Nodup → dictGet patch k = some v →
      dictGet (pyDictUpdate d patch) k = some v := by
  induction patch with
  | nil => intro d k v _ h; simp [dictGet] at h
  | cons kv rest ih =>
    intro d k v hnd hget
    rw [List.map_cons, List.nodup_cons] at hnd
    by_cases hk : (kv.1 == k) = true
    · have hk1 : kv.1 = k := by simpa using hk
      have hfind : List.find? (fun p : String × PyVal => p.1 == k) (kv :: rest) =
          some kv := List.find?_cons_of_pos _ hk
      have hv : v = kv.2 := by
        rw [dictGet, hfind] at hget
        simpa using hget.symm
      subst hk1
      have hskip : dictGet (pyDictUpdate (dictSet d kv.1 kv.2) rest) kv.1 =
          dictGet (dictSet d kv.1 kv.2) kv.1 :=
        dictGet_pyDictUpdate_not_mem rest _ _ hnd.1
      calc dictGet (pyDictUpdate (dictSet d kv.1 kv.2) rest) kv.1
          = dictGet (dictSet d kv.1 kv.2) kv.1 := hskip
        _ = some kv.2 := dictGet_dictSet_self _ _ _
        _ = some v := by rw [hv]
    · have hfind : List.find? (fun p : String × PyVal => p.1 == k) (kv :: rest) =
          List.find? (fun p : String × PyVal => p.1 == k) rest :=
        List.find?_cons_of_neg _ hk
      have hget' : dictGet rest k = some v := by
        rw [dictGet, hfind] at hget
        exact hget
      exact ih _ _ _ hnd.2 hget'

/-- C8: for a state whose backlog splits as `pre ++ [tk] ++ post` with
`tk` the first task carrying id `X`, `update_todo_status` rewrites exactly
`tk` — new status, new `updated_at`, metadata shallow-merged with the patch
— and every record-update-preserved field (`id`, `task` description,
`dependencies`, `priority`, `assigned_agent`, `created_at`) as well as
every task in `pre` and `post` is unchanged; on key collision the merged
metadata holds the patch's value. -/
theorem c8_update_status_frame (s : DeepAgentState) (pre post : List TodoItem)
    (tk : TodoItem) (X : String) (st : TodoStatus) (md : List (String × PyVal))
    (now : Nat) (hsplit : s.todos = pre ++ tk :: post) (hid : tk.id = X)
    (hpre : X ∉ pre.map TodoItem.id) :
    (update_todo_status s X st md now).todos =
      pre ++
        { tk with
            status := st
            updated_at := now
            metadata :=
              if md.isEmpty then tk.metadata
              else pyDictUpdate tk.metadata md } :: post ∧
    (∀ (k : String) (v : PyVal), (md.map Prod.fst).Nodup → dictGet md k = some v →
      dictGet (pyDictUpdate tk.metadata md) k = some v) := by
  constructor
  · show updateFirstTodo s.todos X (applyTodoUpdate st md now) = _
    rw [hsplit, updateFirstTodo_append tk post X _ hid pre hpre]
    rfl
  · intro k v hnd hget
    exact dictGet_pyDictUpdate_of_mem md tk.metadata k v hnd hget

/-- Witness for C8: one stored task with metadata `{note: "old", keep: 7}`
updated with patch `{note: "new"}`; the patch wins on the colliding key. -/
theorem c8_update_status_frame_witness :
    (let todoW : TodoItem :=
      { id := "todo_1_000000", task := "t", status := TodoStatus.pending,
        created_at := 0, updated_at := 0, priority := TodoPriority.medium,
        assigned_agent := Option.none, dependencies := [],
        metadata := [("note", PyVal.str "old"), ("keep", PyVal.int 7)] }
     (update_todo_status { create_initial_state "q" "sid" 50 0 with todos := [todoW] }
        "todo_1_000000" TodoStatus.completed [("note", PyVal.str "new")] 9).todos =
      [] ++
        { todoW with
            status := TodoStatus.completed
            updated_at := 9
            metadata :=
              if ([("note", PyVal.str "new")] : List (String × PyVal)).isEmpty
              then todoW.metadata
              else pyDictUpdate todoW.metadata [("note", PyVal.str "new")] }
        :: [] ∧
     dictGet (pyDictUpdate todoW.metadata [("note", PyVal.str "new")]) "note" =
       some (PyVal.str "new")) := by
  intro todoW
  constructor
  · exact (c8_update_status_frame
      { create_initial_state "q" "sid" 50 0 with todos := [todoW] } [] [] todoW
      "todo_1_000000" TodoStatus.completed [("note", PyVal.str "new")] 9 rfl rfl
      (by decide)).1
  · exact (c8_update_status_frame
      { create_initial_state "q" "sid" 50 0 with todos := [todoW] } [] [] todoW
      "todo_1_000000" TodoStatus.completed [("note", PyVal.str "new")] 9 rfl rfl
      (by decide)).2 "note" (PyVal.str "new") (by decide) rfl

/-! Decimal-rendering facts: the value of `Nat.toDigits 10 n` read back as a
number is `n`, so the rendering is injective.  Task-id freshness (C9) rests
on this, because `add_todo_item` encodes the backlog position into the id
string `"todo_{position}_{HHMMSS}"`. -/

theorem toDigitsCore_acc (b : Nat) :
    ∀ (fuel n : Nat) (ds : List Char),
      Nat.toDigitsCore b fuel n ds = Nat.toDigitsCore b fuel n [] ++ ds := by
  intro fuel
  induction fuel with
  | zero => intro n ds; rfl
  | succ fuel ih =>
    intro n ds
    simp only [Nat.toDigitsCore]
    by_cases h : n / b = 0
    · simp [h]
    · simp only [if_neg h]
      rw [ih (n / b) (Nat.digitChar (n % b) :: ds), ih (n / b) [Nat.digitChar (n % b)]]
      simp

theorem toDigitsCore_fuel :
    ∀ (f1 f2 n : Nat) (ds : List Char), n < f1 → n < f2 →
      Nat.toDigitsCore 10 f1 n ds = Nat.toDigitsCore 10 f2 n ds := by
  intro f1
  induction f1 with
  | zero => intro f2 n ds h1 _; exact absurd h1 (Nat.not_lt_zero n)
  | succ f1 ih =>
    intro f2 n ds h1 h2
    cases f2 with
    | zero => exact absurd h2 (Nat.not_lt_zero n)
    | succ f2 =>
      simp only [Nat.toDigitsCore]
      by_cases h : n / 10 = 0
      · simp [h]
      · simp only [if_neg h]
        have hn : 0 < n := by
          rcases Nat.eq_zero_or_pos n with rfl | hp
          · simp at h
          · exact hp
        have hdiv : n / 10 < n := Nat.div_lt_self hn (by norm_num)
        exact ih f2 (n / 10) _ (by omega) (by omega)

/-- The number denoted by a most-significant-first list of decimal digit
characters. -/
def digitsVal (l : List Char) : Nat :=
  l.foldl (fun acc c => acc * 10 + (c.toNat - 48)) 0

theorem toDigits_eq_of_lt (n : Nat) (h : n < 10) :
    Nat.toDigits 10 n = [Nat.digitChar n] := by
  rw [Nat.toDigits]
  simp only [Nat.toDigitsCore]
  simp [Nat.div_eq_of_lt h, Nat.mod_eq_of_lt h]

theorem toDigits_eq_of_ge (n : Nat) (h : 10 ≤ n) :
    Nat.toDigits 10 n = Nat.toDigits 10 (n / 10) ++ [Nat.digitChar (n % 10)] := by
  have hne : n / 10 ≠ 0 := by
    have : 1 ≤ n / 10 := (Nat.one_le_div_iff (by norm_num)).mpr h
    omega
  have hn : 0 < n := by omega
  have hdiv : n / 10 < n := Nat.div_lt_self hn (by norm_num)
  rw [Nat.toDigits]
  simp only [Nat.toDigitsCore]
  rw [if_neg hne]
  rw [toDigitsCore_acc 10 n (n / 10) [Nat.digitChar (n % 10)]]
  rw [toDigitsCore_fuel n (n / 10 + 1) (n / 10) [] hdiv (Nat.lt_succ_self _)]
  rfl

theorem digitChar_val (d : Nat) (h : d < 10) : (Nat.digitChar d).toNat - 48 = d := by
  interval_cases d <;> decide

theorem digitsVal_toDigits (n : Nat) : digitsVal (Nat.toDigits 10 n) = n := by
  induction n using Nat.strong_induction_on with
  | _ n ih =>
    by_cases h : n < 10
    · rw [toDigits_eq_of_lt n h]
      simp [digitsVal, digitChar_val n h]
    · have h10 : 10 ≤ n := Nat.le_of_not_lt h
      have hn : 0 < n := by omega
      rw [toDigits_eq_of_ge n h10]
      rw [digitsVal, List.foldl_append]
      have ih2 : digitsVal (Nat.toDigits 10 (n / 10)) = n / 10 :=
        ih (n / 10) (Nat.div_lt_self hn (by norm_num))
      rw [digitsVal] at ih2
      simp only [List.foldl_cons, List.foldl_nil]
      rw [ih2, digitChar_val (n % 10) (Nat.mod_lt n (by norm_num))]
      omega

theorem toDigits_inj (m n : Nat)
    (h : Nat.toDigits 10 m = Nat.toDigits 10 n) : m = n := by
  have h1 := digitsVal_toDigits m
  rw [h, digitsVal_toDigits n] at h1
  exact h1.symm

theorem repr_length_of_lt (n : Nat) (h : n < 10) : (Nat.repr n).length = 1 := by
  show (Nat.toDigits 10 n).length = 1
  rw [toDigits_eq_of_lt n h]
  rfl

theorem repr_length_of_ge (n : Nat) (h10 : 10 ≤ n) (h100 : n < 100) :
    (Nat.repr n).length = 2 := by
  show (Nat.toDigits 10 n).length = 2
  have hlt : n / 10 < 10 :=
    (Nat.div_lt_iff_lt_mul (by norm_num)).mpr (by omega)
  rw [toDigits_eq_of_ge n h10, List.length_append, toDigits_eq_of_lt (n / 10) hlt]
  rfl

theorem pad2_length (n : Nat) (h : n < 100) : (pad2 n).length = 2 := by
  rw [pad2]
  by_cases h10 : n < 10
  · rw [if_pos h10, String.length_append, repr_length_of_lt n h10]
    rfl
  · rw [if_neg h10]
    exact repr_length_of_ge n (Nat.le_of_not_lt h10) h

theorem hhmmss_length (t : Nat) : (hhmmss t).length = 6 := by
  have h1 : t / 3600 % 24 < 100 := lt_trans (Nat.mod_lt _ (by norm_num)) (by norm_num)
  have h2 : t % 3600 / 60 < 100 := by
    have : t % 3600 / 60 < 60 :=
      (Nat.div_lt_iff_lt_mul (by norm_num)).mpr
        (lt_of_lt_of_le (Nat.mod_lt _ (by norm_num)) (by norm_num))
    omega
  have h3 : t % 60 < 100 := lt_trans (Nat.mod_lt _ (by norm_num)) (by norm_num)
  rw [hhmmss, String.length_append, String.length_append,
    pad2_length _ h1, pad2_length _ h2, pad2_length _ h3]

/-- The numeric (backlog-position) component of a generated task id is
recoverable: two id strings built with different position components are
different, whatever their HHMMSS components. -/
theorem todoId_encode_inj (a b t1 t2 : Nat)
    (h : "todo_" ++ Nat.repr a ++ "_" ++ hhmmss t1 =
         "todo_" ++ Nat.repr b ++ "_" ++ hhmmss t2) : a = b := by
  have hlen := congrArg String.length h
  rw [String.length_append, String.length_append, String.length_append,
    String.length_append, String.length_append, String.length_append,
    hhmmss_length t1, hhmmss_length t2] at hlen
  have hrl : (Nat.repr a).length = (Nat.repr b).length := by omega
  have hd := congrArg String.data h
  simp only [String.data_append] at hd
  have hh : (hhmmss t1).data.length = (hhmmss t2).data.length := by
    show (hhmmss t1).length = (hhmmss t2).length
    rw [hhmmss_length, hhmmss_length]
  have h2 := (List.append_inj' hd hh).1
  have h3 := (List.append_inj' h2 rfl).1
  have h4 := (List.append_inj h3 rfl).2
  exact toDigits_inj a b h4

/-- States reachable from `create_initial_state` by the published
state-mutating operations of `agent_state.py`. -/
inductive Reached : DeepAgentState → Prop where
  | init (user_message session_id : String) (max_iterations now : Nat) :
      Reached (create_initial_state user_message session_id max_iterations now)
  | add_todo (s : DeepAgentState) (t : String) (pr : TodoPriority)
      (ag : Option String) (deps : List String) (now : Nat) :
      Reached s → Reached (add_todo_item s t pr ag deps now)
  | upd_todo (s : DeepAgentState) (todo_id : String) (st : TodoStatus)
      (md : List (String × PyVal)) (now : Nat) :
      Reached s → Reached (update_todo_status s todo_id st md now)
  | wfile (s : DeepAgentState) (filename content : String) (ty : FileType)
      (now : Nat) : Reached s → Reached (write_file s filename content ty now)
  | rfile (s : DeepAgentState) (filename : String) (now : Nat) :
      Reached s → Reached (read_file s filename now).1
  | cput (s : DeepAgentState) (sym dt : String) (data : List (String × PyVal))
      (em now : Nat) :
      Reached s → Reached (cache_financial_data s sym dt data em now)
  | cget (s : DeepAgentState) (sym dt : String) (now : Nat) :
      Reached s → Reached (get_cached_financial_data s sym dt now).1
  | reg (s : DeepAgentState) (n d : String) (tools : List String) (now : Nat) :
      Reached s → Reached (register_sub_agent s n d tools now)
  | mark (s : DeepAgentState) (n : String) (st : SubAgentStatus)
      (r : Option (List (String × PyVal))) (now : Nat) :
      Reached s → Reached (update_sub_agent_status s n st r now)

/-- Invariant: the task at position `i` of the backlog carries the id
`"todo_{i+1}_{HHMMSS}"` for some instant. -/
def IdsWF (s : DeepAgentState) : Prop :=
  ∀ (i : Nat) (id0 : String), (s.todos.map TodoItem.id)[i]? = some id0 →
    ∃ t : Nat, id0 = "todo_" ++ Nat.repr (i + 1) ++ "_" ++ hhmmss t

theorem todos_read_file (s : DeepAgentState) (filename : String) (now : Nat) :
    (read_file s filename now).1.todos = s.todos := by
  simp only [read_file]
  cases dictGet s.files filename <;> rfl

theorem todos_get_cached (s : DeepAgentState) (sym dt : String) (now : Nat) :
    (get_cached_financial_data s sym dt now).1.todos = s.todos := by
  simp only [get_cached_financial_data]
  cases dictGet s.financial_cache (sym ++ "_" ++ dt) with
  | none => rfl
  | some ci => by_cases h : now < ci.expiry <;> simp [h]

theorem updateFirstTodo_map_id (todos : List TodoItem) (X : String)
    (f : TodoItem → TodoItem) (hf : ∀ t, (f t).id = t.id) :
    (updateFirstTodo todos X f).map TodoItem.id = todos.map TodoItem.id := by
  induction todos with
  | nil => rfl
  | cons t rest ih =>
    rw [updateFirstTodo]
    by_cases h : (t.id == X) = true
    · rw [if_pos h]
      simp [hf]
    · rw [if_neg h]
      simp [ih]

theorem reached_IdsWF (s : DeepAgentState) (h : Reached s) : IdsWF s := by
  induction h with
  | init u sid mi now =>
    intro i id0 hmem
    simp [create_initial_state] at hmem
  | add_todo s t pr ag deps now _ ih =>
    intro i id0 hmem
    have hmap : (add_todo_item s t pr ag deps now).todos.map TodoItem.id =
        s.todos.map TodoItem.id ++ [newTodoId s now] := by
      simp [add_todo_item]
    rw [hmap] at hmem
    by_cases hlt : i < (s.todos.map TodoItem.id).length
    · rw [List.getElem?_append_left hlt] at hmem
      exact ih i id0 hmem
    · have hle : (s.todos.map TodoItem.id).length ≤ i := Nat.le_of_not_lt hlt
      rw [List.getElem?_append_right hle] at hmem
      have hbound : i - (s.todos.map TodoItem.id).length <
          ([newTodoId s now] : List String).length := by
        rcases List.getElem?_eq_some_iff.mp hmem with ⟨hb, _⟩
        exact hb
      have hzero : i - (s.todos.map TodoItem.id).length = 0 := by
        simp only [List.length_singleton] at hbound
        omega
      rw [hzero] at hmem
      have hid0 : id0 = newTodoId s now := by
        simpa using hmem.symm
      have hi : i = s.todos.length := by
        have := List.length_map s.todos TodoItem.id
        omega
      refine ⟨now, ?_⟩
      rw [hid0, newTodoId, hi]
  | upd_todo s todo_id st md now _ ih =>
    intro i id0 hmem
    have hmap : (update_todo_status s todo_id st md now).todos.map TodoItem.id =
        s.todos.map TodoItem.id :=
      updateFirstTodo_map_id _ _ _ (fun t => rfl)
    rw [hmap] at hmem
    exact ih i id0 hmem
  | wfile s filename content ty now _ ih => exact ih
  | rfile s filename now _ ih =>
    intro i id0 hmem
    rw [todos_read_file s filename now] at hmem
    exact ih i id0 hmem
  | cput s sym dt data em now _ ih => exact ih
  | cget s sym dt now _ ih =>
    intro i id0 hmem
    rw [todos_get_cached s sym dt now] at hmem
    exact ih i id0 hmem
  | reg s n d tools now _ ih => exact ih
  | mark s n st r now _ ih => exact ih

theorem IdsWF_fresh (s : DeepAgentState) (hwf : IdsWF s) (now : Nat) :
    ∀ td ∈ s.todos, td.id ≠ newTodoId s now := by
  intro td hmem heq
  have hidmem : td.id ∈ s.todos.map TodoItem.id := List.mem_map_of_mem _ hmem
  rcases List.mem_iff_getElem?.mp hidmem with ⟨i, hget⟩
  have hlt : i < (s.todos.map TodoItem.id).length :=
    (List.getElem?_eq_some_iff.mp hget).1
  rcases hwf i td.id hget with ⟨t, ht⟩
  rw [heq, newTodoId] at ht
  have := todoId_encode_inj (s.todos.length + 1) (i + 1) now t ht
  have hmaplen := List.length_map s.todos TodoItem.id
  omega

/-- C9: in every reachable session state, `add_todo_item` appends a task
whose generated id differs from the id of every task already in the
backlog: the id encodes the backlog position, tasks are never removed, and
the position component therefore differs from every stored one. -/
theorem c9_add_todo_fresh_id (s : DeepAgentState) (hs : Reached s) (t : String)
    (pr : TodoPriority) (ag : Option String) (deps : List String) (now : Nat) :
    ((add_todo_item s t pr ag deps now).todos =
      s.todos ++
        [{ id := newTodoId s now
           task := t
           status := TodoStatus.pending
           created_at := now
           updated_at := now
           priority := pr
           assigned_agent := ag
           dependencies := deps
           metadata := [] }]) ∧
    ∀ td ∈ s.todos, td.id ≠ newTodoId s now :=
  ⟨rfl, IdsWF_fresh s (reached_IdsWF s hs) now⟩

/-- Witness for C9: after one add at time 0 the stored id is
`todo_1_000000`; a second add at time 3661 would generate `todo_2_010101`,
and the stored id indeed differs from the new one. -/
theorem c9_add_todo_fresh_id_witness :
    ("todo_1_000000" : String) ≠
      newTodoId (add_todo_item (create_initial_state "q" "sid" 50 0) "first"
        TodoPriority.medium Option.none [] 0) 3661 :=
  (c9_add_todo_fresh_id _
      (Reached.add_todo _ "first" TodoPriority.medium Option.none [] 0
        (Reached.init "q" "sid" 50 0))
      "second" TodoPriority.medium Option.none [] 3661).2
    { id := "todo_1_000000", task := "first", status := TodoStatus.pending,
      created_at := 0, updated_at := 0, priority := TodoPriority.medium,
      assigned_agent := Option.none, dependencies := [], metadata := [] }
    (List.mem_singleton.mpr rfl)

/-- C1 counterexample: the spec's own scenario — register specialist
`stock_analyst`, delegate "analyze AAPL", capability succeeds with payload
`{rec: "BUY"}`.  The tool returns the results string, but the specialist's
registry record still has status `idle` (not `completed`) and no stored
last-result: the delegator never calls `update_sub_agent_status`. -/
theorem c1_delegation_does_not_mark_completed :
    (let s0 := register_sub_agent (create_initial_state "q" "sid" 50 0)
        "stock_analyst" "Individual stock analysis" ["get_stock_price"] 0
     let reg : List (String × Capability) :=
       [("stock_analyst",
         fun _ => Except.ok (some [{ content := some "\x7brec: \"BUY\"\x7d" }]))]
     let p := delegate s0 reg "stock_analyst" "analyze AAPL"
     p.2 = "Sub-agent 'stock_analyst' results:\n" ++ "\x7brec: \"BUY\"\x7d" ∧
     ¬ ((dictGet p.1.sub_agents "stock_analyst").map SubAgentInfo.status =
        some SubAgentStatus.completed) ∧
     (dictGet p.1.sub_agents "stock_analyst").map SubAgentInfo.status =
        some SubAgentStatus.idle ∧
     (dictGet p.1.sub_agents "stock_analyst").map SubAgentInfo.results =
        some Option.none) :=
  ⟨rfl, by decide, rfl, rfl⟩

/-- C1 amended: a successful delegation — the capability returns a result
whose last message carries content — returns that content to the caller in
the results string, and leaves the session state, in particular the
specialist's registry record (status and stored last-result), exactly as
before the call; the delegation tool never invokes
`update_sub_agent_status`. -/
theorem c1_amended_delegation_returns_result_state_unchanged
    (state : DeepAgentState) (sub_agents : List (String × Capability))
    (agent_name task_description : String) (cap : Capability)
    (msgs : List MessageLike) (last_message : MessageLike) (c : String)
    (hreg : dictGet sub_agents agent_name = some cap)
    (hinv : cap task_description = Except.ok (some msgs))
    (hlast : msgs.getLast? = some last_message)
    (hc : last_message.content = some c) :
    delegate state sub_agents agent_name task_description =
      (state, "Sub-agent '" ++ agent_name ++ "' results:\n" ++ c) := by
  simp [delegate, task, hreg, hinv, hlast, hc]

/-- Witness for the amended C1 at the registered `stock_analyst` scenario. -/
theorem c1_amended_delegation_witness :
    delegate (register_sub_agent (create_initial_state "q" "sid" 50 0)
        "stock_analyst" "Individual stock analysis" ["get_stock_price"] 0)
      [("stock_analyst",
        fun _ => Except.ok (some [{ content := some "\x7brec: \"BUY\"\x7d" }]))]
      "stock_analyst" "analyze AAPL" =
    (register_sub_agent (create_initial_state "q" "sid" 50 0)
        "stock_analyst" "Individual stock analysis" ["get_stock_price"] 0,
      "Sub-agent '" ++ "stock_analyst" ++ "' results:\n" ++ "\x7brec: \"BUY\"\x7d") :=
  c1_amended_delegation_returns_result_state_unchanged _ _ _ _
    (fun _ => Except.ok (some [{ content := some "\x7brec: \"BUY\"\x7d" }]))
    [{ content := some "\x7brec: \"BUY\"\x7d" }]
    { content := some "\x7brec: \"BUY\"\x7d" } "\x7brec: \"BUY\"\x7d"
    rfl rfl rfl rfl
